import Mathlib

/-!
Verification of the streaming data-set token reader and core data model of a
DICOM decoding library (sremedios/dicom-rs, crate core).

The embedding follows the Rust sources:
  src/core/src/data/mod.rs      (Tag, VR, Length, headers)
  src/core/src/data/text.rs     (text codec layer, validators)
  src/core/src/data/dataset.rs  (DataSetReader, LazyDataSetReader, markers)

Machine integers (u16, u32) are modelled as Nat with explicit wrap at
2 to the 32 where the source relies on wrapping; panics and Rust Result
are modelled with Option and Except.  The external parser capability
(decode_header, decode_item_header, read_value, set_character_set) is
modelled as a script of responses consumed in call order.
-/

set_option maxRecDepth 8192

deriving instance DecidableEq for Except

namespace Dicom

/-- The wrap modulus of the u32 type. -/
def U32_MOD : Nat := 4294967296

/-- DICOM attribute tag, a pair of 16-bit words (struct Tag, data/mod.rs). -/
structure Tag where
  group : Nat
  element : Nat
deriving DecidableEq, Repr

/-- The error kinds of the crate error type that the claims distinguish.
The variant ioEof stands for an I/O error whose kind is UnexpectedEof;
ioOther stands for any other I/O error. -/
inductive DErr where
  | ioEof
  | ioOther
  | unexpectedElement
  | unexpectedDataValueLength
  | textEncoding
  | unresolvedValueLength
  | invalidHeader
deriving DecidableEq, Repr

/-- The closed enumeration of the 32 value representations (enum VR, data/mod.rs). -/
inductive VR where
  | AE | AS | AT | CS | DA | DS | DT | FL | FD | IS | LO | LT | OB | OD | OF | OL
  | OW | PN | SH | SL | SQ | SS | ST | TM | UC | UI | UL | UN | UR | US | UT
deriving DecidableEq, Repr

/-- The sentinel value reserved for an undefined length (const UNDEFINED_LEN). -/
def UNDEFINED_LEN : Nat := 4294967295

/-- A data set content length in bytes; the sentinel value means undefined
(struct Length, data/mod.rs). The wrapped u32 is modelled as a Nat. -/
structure Length where
  val : Nat
deriving DecidableEq, Repr

namespace Length

/-- Length::new accepts any value, sentinel included. -/
def new (len : Nat) : Length := ⟨len⟩

/-- Length::undefined produces the sentinel. -/
def undefined : Length := ⟨UNDEFINED_LEN⟩

/-- Length::defined asserts (assert_ne) that the argument is not the
sentinel; the panic on the sentinel is modelled as none. -/
def defined (len : Nat) : Option Length :=
  if len = UNDEFINED_LEN then none else some ⟨len⟩

/-- Length::is_undefined. -/
def is_undefined (l : Length) : Bool := l.val == UNDEFINED_LEN

/-- Length::is_defined. -/
def is_defined (l : Length) : Bool := !l.is_undefined

/-- Length::get: the concrete value, or none when undefined. -/
def get (l : Length) : Option Nat :=
  if l.val = UNDEFINED_LEN then none else some l.val

/-- The PartialEq implementation of Length: an undefined length compares
equal to nothing, not even to another undefined length. -/
def eq (a b : Length) : Bool :=
  if a.val = UNDEFINED_LEN ∨ b.val = UNDEFINED_LEN then false
  else a.val == b.val

/-- Rust a != b, which is the negation of PartialEq::eq. -/
def ne (a b : Length) : Bool := !(eq a b)

/-- The PartialOrd implementation of Length: no ordering exists when either
side is undefined. -/
def pcmp (a b : Length) : Option Ordering :=
  if a.val = UNDEFINED_LEN ∨ b.val = UNDEFINED_LEN then none
  else some (compare a.val b.val)

/-- Rust a < b derived from PartialOrd: true exactly when pcmp is some lt. -/
def lt (a b : Length) : Bool := pcmp a b == some Ordering.lt

/-- Rust a > b derived from PartialOrd: true exactly when pcmp is some gt. -/
def gt (a b : Length) : Bool := pcmp a b == some Ordering.gt

/-- The Add of two lengths: any undefined operand gives undefined, otherwise
u32 addition (the debug assertion that the sum is not the sentinel is a
debug-build check; release builds wrap, which the model follows). -/
def add (a b : Length) : Length :=
  if a.val = UNDEFINED_LEN ∨ b.val = UNDEFINED_LEN then undefined
  else ⟨(a.val + b.val) % U32_MOD⟩

/-- The Add of a length and an i32 delta: undefined stays undefined,
otherwise the sum is computed in signed space and wrapped to u32. -/
def add_i (a : Length) (rhs : Int) : Length :=
  if a.val = UNDEFINED_LEN then undefined
  else ⟨(((a.val : Int) + rhs).emod (U32_MOD : Int)).toNat⟩

/-- The Sub of two lengths, mirroring add (u32 subtraction wraps). -/
def sub (a b : Length) : Length :=
  if a.val = UNDEFINED_LEN ∨ b.val = UNDEFINED_LEN then undefined
  else ⟨(a.val + (U32_MOD - b.val % U32_MOD)) % U32_MOD⟩

end Length

/-- A data element header: tag, value representation and length
(struct DataElementHeader, data/mod.rs). -/
structure DataElementHeader where
  tag : Tag
  vr : VR
  len : Length
deriving DecidableEq, Repr

/-- A sequence item header (enum SequenceItemHeader, data/mod.rs). -/
inductive SequenceItemHeader where
  | item (len : Length)
  | itemDelimiter
  | sequenceDelimiter
deriving DecidableEq, Repr

namespace SequenceItemHeader

/-- SequenceItemHeader::new: constructs the variant from raw tag and length,
rejecting an item delimiter with a length that is not equal (under the
Length PartialEq) to zero, and rejecting any tag that is not one of the
three sentinel tags. -/
def new (tag : Tag) (len : Length) : Except DErr SequenceItemHeader :=
  if tag = ⟨0xFFFE, 0xE000⟩ then
    Except.ok (SequenceItemHeader.item len)
  else if tag = ⟨0xFFFE, 0xE00D⟩ then
    if Length.ne len (Length.new 0) then Except.error DErr.unexpectedDataValueLength
    else Except.ok SequenceItemHeader.itemDelimiter
  else if tag = ⟨0xFFFE, 0xE0DD⟩ then
    Except.ok SequenceItemHeader.sequenceDelimiter
  else
    Except.error DErr.unexpectedElement

/-- The Header impl for SequenceItemHeader: the tag of each variant. -/
def tag : SequenceItemHeader → Tag
  | .item _ => ⟨0xFFFE, 0xE000⟩
  | .itemDelimiter => ⟨0xFFFE, 0xE00D⟩
  | .sequenceDelimiter => ⟨0xFFFE, 0xE0DD⟩

/-- The Header impl for SequenceItemHeader: the length of each variant. -/
def len : SequenceItemHeader → Length
  | .item l => l
  | .itemDelimiter => Length.new 0
  | .sequenceDelimiter => Length.new 0

end SequenceItemHeader

/-- The From conversion of a sequence item header into a data element header
(data/mod.rs): the VR is set to UN and tag and length are copied. -/
def DataElementHeader.fromItemHeader (h : SequenceItemHeader) : DataElementHeader :=
  ⟨h.tag, VR.UN, h.len⟩

/-- C5: Length algebra. Undefined lengths are never equal, even to
themselves; adding anything to an undefined length (another length or an
i32 delta) yields an undefined length; no ordering comparison holds against
an undefined length; adding two defined lengths whose sum stays below the
sentinel agrees, under the Length equality, with the defined sum; and the
defined constructor rejects (panics on) the sentinel. -/
theorem length_algebra :
    (Length.eq Length.undefined Length.undefined = false
      ∧ Length.ne Length.undefined Length.undefined = true)
    ∧ (∀ x : Length, (Length.add Length.undefined x).is_undefined = true)
    ∧ (∀ z : Int, (Length.add_i Length.undefined z).is_undefined = true)
    ∧ (∀ x : Length, Length.lt Length.undefined x = false
        ∧ Length.gt Length.undefined x = false)
    ∧ (∀ a b : Nat, a + b < UNDEFINED_LEN →
        ∃ la lb lc, Length.defined a = some la ∧ Length.defined b = some lb
          ∧ Length.defined (a + b) = some lc ∧ Length.eq (Length.add la lb) lc = true)
    ∧ Length.defined UNDEFINED_LEN = none := by
  refine ⟨⟨rfl, rfl⟩, ?_, ?_, ?_, ?_, rfl⟩
  · intro x
    simp [Length.add, Length.undefined, Length.is_undefined]
  · intro z
    simp [Length.add_i, Length.undefined, Length.is_undefined]
  · intro x
    constructor <;> simp [Length.lt, Length.gt, Length.pcmp, Length.undefined]
  · intro a b hab
    have ha : a ≠ UNDEFINED_LEN := by omega
    have hb : b ≠ UNDEFINED_LEN := by omega
    have hsum : a + b ≠ UNDEFINED_LEN := by omega
    refine ⟨⟨a⟩, ⟨b⟩, ⟨a + b⟩, ?_, ?_, ?_, ?_⟩
    · simp [Length.defined, ha]
    · simp [Length.defined, hb]
    · simp [Length.defined, hsum]
    · have hmod : (a + b) % U32_MOD = a + b := by
        apply Nat.mod_eq_of_lt
        have : UNDEFINED_LEN < U32_MOD := by decide
        omega
      simp [Length.add, Length.eq, ha, hb, hsum, hmod]

/-- Witness for length_algebra: the defined-sum clause at 1 and 2. -/
theorem length_algebra_witness :
    (1 + 2 < UNDEFINED_LEN)
    ∧ ∃ la lb lc, Length.defined 1 = some la ∧ Length.defined 2 = some lb
        ∧ Length.defined (1 + 2) = some lc ∧ Length.eq (Length.add la lb) lc = true :=
  ⟨by decide, length_algebra.2.2.2.2.1 1 2 (by decide)⟩

/-- C6 counterexample: the claim says the sequence-delimiter tag
(FFFE,E0DD) is rejected when the length is non-zero, but
SequenceItemHeader::new accepts it with length 4 (there is no length check
on the sequence-delimiter arm). -/
theorem sequenceItemHeader_new_seqDelim_nonzero_accepted :
    SequenceItemHeader.new ⟨0xFFFE, 0xE0DD⟩ (Length.new 4)
      = Except.ok SequenceItemHeader.sequenceDelimiter := by
  decide

/-- C6 amended: SequenceItemHeader::new rejects the item-delimiter tag
(FFFE,E00D) with UnexpectedDataValueLength whenever the length is not equal
to zero under the Length equality; it accepts the sequence-delimiter tag
(FFFE,E0DD) with any length; it accepts the item tag (FFFE,E000) with any
length; and it rejects every tag that is not one of the three sentinels
with UnexpectedElement. -/
theorem sequenceItemHeader_new_spec (len : Length) :
    (Length.ne len (Length.new 0) = true →
      SequenceItemHeader.new ⟨0xFFFE, 0xE00D⟩ len
        = Except.error DErr.unexpectedDataValueLength)
    ∧ (Length.ne len (Length.new 0) = false →
      SequenceItemHeader.new ⟨0xFFFE, 0xE00D⟩ len
        = Except.ok SequenceItemHeader.itemDelimiter)
    ∧ SequenceItemHeader.new ⟨0xFFFE, 0xE0DD⟩ len
        = Except.ok SequenceItemHeader.sequenceDelimiter
    ∧ SequenceItemHeader.new ⟨0xFFFE, 0xE000⟩ len
        = Except.ok (SequenceItemHeader.item len)
    ∧ (∀ tag : Tag, tag ≠ ⟨0xFFFE, 0xE000⟩ → tag ≠ ⟨0xFFFE, 0xE00D⟩ →
        tag ≠ ⟨0xFFFE, 0xE0DD⟩ →
        SequenceItemHeader.new tag len = Except.error DErr.unexpectedElement) := by
  refine ⟨?_, ?_, ?_, ?_, ?_⟩
  · intro h
    simp [SequenceItemHeader.new, h]
  · intro h
    simp [SequenceItemHeader.new, h]
  · simp [SequenceItemHeader.new]
  · simp [SequenceItemHeader.new]
  · intro tag h1 h2 h3
    simp [SequenceItemHeader.new, h1, h2, h3]

/-- Witness for sequenceItemHeader_new_spec: the item-delimiter rejection at
length 2 and the non-sentinel rejection at tag (0010,0010). -/
theorem sequenceItemHeader_new_spec_witness :
    (Length.ne (Length.new 2) (Length.new 0) = true
      ∧ SequenceItemHeader.new ⟨0xFFFE, 0xE00D⟩ (Length.new 2)
          = Except.error DErr.unexpectedDataValueLength)
    ∧ SequenceItemHeader.new ⟨0x0010, 0x0010⟩ (Length.new 2)
        = Except.error DErr.unexpectedElement :=
  ⟨⟨by decide, (sequenceItemHeader_new_spec (Length.new 2)).1 (by decide)⟩,
    (sequenceItemHeader_new_spec (Length.new 2)).2.2.2.2 ⟨0x0010, 0x0010⟩
      (by decide) (by decide) (by decide)⟩

/-! ### Text codec layer (data/text.rs) -/

/-- The enumeration of supported character sets
(enum SpecificCharacterSet, data/text.rs). -/
inductive SpecificCharacterSet where
  | Default
  | IsoIr192
deriving DecidableEq, Repr

/-- SpecificCharacterSet::from_code: maps the recognized UID strings to a
character set; unknown UIDs yield none. -/
def SpecificCharacterSet.from_code (uid : String) : Option SpecificCharacterSet :=
  if uid = "Default" ∨ uid = "ISO_IR_6" then some SpecificCharacterSet.Default
  else if uid = "ISO_IR_192" then some SpecificCharacterSet.IsoIr192
  else none

/-- The outcome of a text validation (enum TextValidationOutcome, data/text.rs). -/
inductive TextValidationOutcome where
  | Ok
  | BadCharacters
  | NotOk
deriving DecidableEq, Repr

/-- decode_text_trap (data/text.rs): for a byte the strict decoder rejected,
emit a backslash and the three octal digit characters of the byte, computed
with the same bit operations as the source (c and 7; c and 56 shifted right
by 3; c and 192 shifted right by 6). -/
def decode_text_trap (c : Nat) : List Char :=
  let o0 := Nat.land c 7
  let o1 := Nat.shiftRight (Nat.land c 56) 3
  let o2 := Nat.shiftRight (Nat.land c 192) 6
  [Char.ofNat 92, Char.ofNat (48 + o2), Char.ofNat (48 + o1), Char.ofNat (48 + o0)]

/-- The specification wording of the trap output: a backslash followed by
the three octal digits of the byte, high to low. -/
def trap_octal_spec (c : Nat) : List Char :=
  [Char.ofNat 92, Char.ofNat (48 + c / 64), Char.ofNat (48 + c / 8 % 8),
    Char.ofNat (48 + c % 8)]

/-- Modelled from the external encoding collaborator: the strict ISO 8859-1
decoder. ISO 8859-1 assigns every byte value 0x00 to 0xFF the Unicode code
point of the same value, so strict decoding is total on bytes; the guard on
byte range only keeps the model total on Nat. -/
def iso8859_decode_strict (text : List Nat) : Option (List Char) :=
  if text.all (fun c => c < 256) then some (text.map Char.ofNat) else none

/-- validate_iso_8859 (data/text.rs): strict decode first; when it fails,
decode again under the trap, reporting BadCharacters on success and NotOk
on failure. In the model the trap decode always succeeds, so the failure
branch collapses to BadCharacters. -/
def validate_iso_8859 (text : List Nat) : TextValidationOutcome :=
  match iso8859_decode_strict text with
  | none => TextValidationOutcome.BadCharacters
  | some _ => TextValidationOutcome.Ok

/-- C9 counterexample: the claim says strict ISO 8859-1 decoding of a slice
holding the byte 0xFF reports BadCharacters, but 0xFF is a valid ISO 8859-1
byte (the letter y with diaeresis), so validate_iso_8859 reports Ok. -/
theorem validate_iso_8859_ff_ok :
    validate_iso_8859 [255] = TextValidationOutcome.Ok
      ∧ TextValidationOutcome.Ok ≠ TextValidationOutcome.BadCharacters := by
  exact ⟨rfl, by decide⟩

/-- C9 amended: a slice holding the byte 0xFF is valid ISO 8859-1 text, so
validate_iso_8859 returns Ok; the lossy decode trap, applied to any byte a
strict decoder rejects, emits a backslash followed by the three octal
digits of the byte, high to low, so a rejected 0xFF yields the four
characters backslash, 3, 7, 7. -/
theorem trap_octal_and_iso8859 :
    validate_iso_8859 [255] = TextValidationOutcome.Ok
    ∧ (∀ c : Nat, c < 256 → decode_text_trap c = trap_octal_spec c)
    ∧ decode_text_trap 255
        = [Char.ofNat 92, Char.ofNat 51, Char.ofNat 55, Char.ofNat 55] := by
  refine ⟨rfl, ?_, by decide⟩
  decide

/-- Witness for trap_octal_and_iso8859: the octal formula at byte 0xFF. -/
theorem trap_octal_and_iso8859_witness :
    (255 < 256) ∧ decode_text_trap 255 = trap_octal_spec 255 :=
  ⟨by decide, trap_octal_and_iso8859.2.1 255 (by decide)⟩

/-! ### The streaming token reader (data/dataset.rs, DataSetReader) -/

/-- Modelled from the spec: primitive values produced by the external value
reader (the data/value module is not among these sources). The tokenizer
only asks whether a value is readable as a string (PrimitiveValue::string),
so the model splits values into string values and abstract non-string
values. -/
inductive PrimitiveValue where
  | str (s : String)
  | nonStr (id : Nat)
deriving DecidableEq, Repr

/-- PrimitiveValue::string: some for string values, none otherwise. -/
def PrimitiveValue.string : PrimitiveValue → Option String
  | .str s => some s
  | .nonStr _ => none

/-- A token of a DICOM data set stream (enum DicomDataToken, data/dataset.rs). -/
inductive DicomDataToken where
  | elementHeader (h : DataElementHeader)
  | sequenceStart (tag : Tag) (len : Length)
  | sequenceEnd
  | itemStart (len : Length)
  | itemEnd
  | primitiveValue (v : PrimitiveValue)
deriving DecidableEq, Repr

/-- The responses of the external parser capability, consumed in call
order: one list per operation (decode_header, decode_item_header,
read_value, set_character_set). An exhausted list stands for a source that
has run out of bytes, which the real decoder reports as an I/O error of
kind UnexpectedEof. -/
structure ParserScript where
  hdrs : List (Except DErr DataElementHeader)
  items : List (Except DErr SequenceItemHeader)
  vals : List (Except DErr PrimitiveValue)
  csr : List (Except DErr Unit)
deriving DecidableEq, Repr

/-- Pop the next decode_header response. -/
def popH (p : ParserScript) : Except DErr DataElementHeader × ParserScript :=
  match p.hdrs with
  | [] => (Except.error DErr.ioEof, p)
  | r :: rest => (r, { p with hdrs := rest })

/-- Pop the next decode_item_header response. -/
def popI (p : ParserScript) : Except DErr SequenceItemHeader × ParserScript :=
  match p.items with
  | [] => (Except.error DErr.ioEof, p)
  | r :: rest => (r, { p with items := rest })

/-- Pop the next read_value response. -/
def popV (p : ParserScript) : Except DErr PrimitiveValue × ParserScript :=
  match p.vals with
  | [] => (Except.error DErr.ioEof, p)
  | r :: rest => (r, { p with vals := rest })

/-- Pop the next set_character_set response. -/
def popC (p : ParserScript) : Except DErr Unit × ParserScript :=
  match p.csr with
  | [] => (Except.error DErr.ioEof, p)
  | r :: rest => (r, { p with csr := rest })

/-- The mutable state of DataSetReader (data/dataset.rs): the u32 depth
counter, the two state flags, the pending element header, and the active
character set of the owned parser (mutated by set_character_set). -/
structure DataSetReaderState where
  depth : Nat
  in_sequence : Bool
  hard_break : Bool
  last_header : Option DataElementHeader
  cs : SpecificCharacterSet
deriving DecidableEq, Repr

/-- Wrapping u32 increment, as executed by depth += 1. -/
def u32_add1 (d : Nat) : Nat := (d + 1) % U32_MOD

/-- Wrapping u32 decrement, as executed by depth -= 1 in a release build
(a debug build panics when the counter is zero). -/
def u32_sub1 (d : Nat) : Nat := (d + (U32_MOD - 1)) % U32_MOD

namespace DataSetReader

/-- One next() call of the streaming token reader (data/dataset.rs, the
Iterator impl for DataSetReader), as a function of the reader state and the
scripted parser responses. The result component none is end-of-stream. -/
def next (s : DataSetReaderState) (p : ParserScript) :
    Option (Except DErr DicomDataToken) × DataSetReaderState × ParserScript :=
  if s.hard_break then (none, s, p)
  else if s.in_sequence then
    match popI p with
    | (Except.ok (SequenceItemHeader.item len), p1) =>
        (some (Except.ok (DicomDataToken.itemStart len)),
          { s with in_sequence := false }, p1)
    | (Except.ok SequenceItemHeader.itemDelimiter, p1) =>
        (some (Except.ok DicomDataToken.itemEnd),
          { s with in_sequence := true }, p1)
    | (Except.ok SequenceItemHeader.sequenceDelimiter, p1) =>
        (some (Except.ok DicomDataToken.sequenceEnd),
          { s with depth := u32_sub1 s.depth, in_sequence := false }, p1)
    | (Except.error e, p1) =>
        (some (Except.error e), { s with hard_break := true }, p1)
  else
    match s.last_header with
    | some header =>
      match popV p with
      | (Except.error e, p1) =>
          (some (Except.error e),
            { s with hard_break := true, last_header := none }, p1)
      | (Except.ok v, p1) =>
        if header.tag = ⟨0x0008, 0x0005⟩ then
          match v.string.bind SpecificCharacterSet.from_code with
          | some charset =>
            match popC p1 with
            | (Except.error e, p2) =>
                (some (Except.error e),
                  { s with hard_break := true, last_header := none }, p2)
            | (Except.ok _, p2) =>
                (some (Except.ok (DicomDataToken.primitiveValue v)),
                  { s with last_header := none, cs := charset }, p2)
          | none =>
              (some (Except.ok (DicomDataToken.primitiveValue v)),
                { s with last_header := none }, p1)
        else
          (some (Except.ok (DicomDataToken.primitiveValue v)),
            { s with last_header := none }, p1)
    | none =>
      match popH p with
      | (Except.ok h, p1) =>
        if h.vr = VR.SQ then
          (some (Except.ok (DicomDataToken.sequenceStart h.tag h.len)),
            { s with in_sequence := true, depth := u32_add1 s.depth }, p1)
        else if h.tag = ⟨0xFFFE, 0xE00D⟩ then
          (some (Except.ok DicomDataToken.itemEnd),
            { s with in_sequence := true }, p1)
        else
          (some (Except.ok (DicomDataToken.elementHeader h)),
            { s with last_header := some h }, p1)
      | (Except.error e, p1) =>
        if e = DErr.ioEof then (none, { s with hard_break := true }, p1)
        else (some (Except.error e), { s with hard_break := true }, p1)

/-- The initial reader state: S0 at depth zero (all construction paths). -/
def init (c : SpecificCharacterSet) : DataSetReaderState :=
  ⟨0, false, false, none, c⟩

/-- Iterate next() up to the given fuel, collecting the emitted results and
stopping at the first end-of-stream. -/
def run : Nat → DataSetReaderState → ParserScript →
    List (Except DErr DicomDataToken) × DataSetReaderState × ParserScript
  | 0, s, p => ([], s, p)
  | Nat.succ n, s, p =>
    match next s p with
    | (none, s1, p1) => ([], s1, p1)
    | (some r, s1, p1) =>
      let rest := run n s1 p1
      (r :: rest.1, rest.2.1, rest.2.2)

end DataSetReader

/-! ### Token balance -/

/-- Token class test: a SequenceStart token. -/
def isSeqStart : DicomDataToken → Bool
  | .sequenceStart _ _ => true
  | _ => false

/-- Token class test: a SequenceEnd token. -/
def isSeqEnd : DicomDataToken → Bool
  | .sequenceEnd => true
  | _ => false

/-- Token class test: an ItemStart token. -/
def isItemStart : DicomDataToken → Bool
  | .itemStart _ => true
  | _ => false

/-- Token class test: an ItemEnd token. -/
def isItemEnd : DicomDataToken → Bool
  | .itemEnd => true
  | _ => false

/-- The contribution of a token to the count of open sequences. -/
def seqDelta (t : DicomDataToken) : Int :=
  if isSeqStart t then 1 else if isSeqEnd t then -1 else 0

/-- Scan a token list keeping the running count of open sequences; false as
soon as the count would drop below zero, which happens exactly when a
SequenceEnd has no matching earlier SequenceStart. -/
def seqScan : Int → List DicomDataToken → Bool
  | _, [] => true
  | c, t :: rest =>
    if c + seqDelta t < 0 then false else seqScan (c + seqDelta t) rest

/-- The net sequence bracket sum of a token list. -/
def seqSum (l : List DicomDataToken) : Int := (l.map seqDelta).sum

/-- The balance property of the claim: equal counts of SequenceStart and
SequenceEnd tokens, equal counts of ItemStart and ItemEnd tokens, and every
SequenceEnd preceded by a matching SequenceStart at the same depth (the
running count of open sequences never drops below zero). -/
def balanced (l : List DicomDataToken) : Prop :=
  l.countP isSeqStart = l.countP isSeqEnd
  ∧ l.countP isItemStart = l.countP isItemEnd
  ∧ seqScan 0 l = true

/-- C1 counterexample: a source that is truncated right after a sequence
header and an item header. The run completes without error (the third
next() call hits end-of-file during header decode in S0, a clean
end-of-stream), yet the emitted stream holds a SequenceStart and an
ItemStart and no closing tokens, so the counts are unequal. -/
theorem truncated_sequence_unbalanced :
    (DataSetReader.run 3 (DataSetReader.init SpecificCharacterSet.Default)
        ⟨[Except.ok ⟨⟨0x0040, 0x0275⟩, VR.SQ, Length.undefined⟩],
          [Except.ok (SequenceItemHeader.item Length.undefined)], [], []⟩).1
      = [Except.ok (DicomDataToken.sequenceStart ⟨0x0040, 0x0275⟩ Length.undefined),
          Except.ok (DicomDataToken.itemStart Length.undefined)]
    ∧ (DataSetReader.run 3 (DataSetReader.init SpecificCharacterSet.Default)
        ⟨[Except.ok ⟨⟨0x0040, 0x0275⟩, VR.SQ, Length.undefined⟩],
          [Except.ok (SequenceItemHeader.item Length.undefined)], [], []⟩).2.1.hard_break
      = true
    ∧ ¬ balanced [DicomDataToken.sequenceStart ⟨0x0040, 0x0275⟩ Length.undefined,
          DicomDataToken.itemStart Length.undefined] := by
  refine ⟨by decide, by decide, ?_⟩
  intro hbal
  exact absurd hbal.1 (by decide)

/-- C2: how unexpected end-of-file is surfaced, by state. In S0 (no pending
header, not inside a sequence) an UnexpectedEof I/O error from decode_header
yields end-of-stream (none) with no error result and fuses the reader; in
S1 (pending value) the same error from read_value yields an error result;
in S2 (expecting an item header) the same error from decode_item_header
yields an error result. -/
theorem eof_handling_by_state :
    (∀ (d : Nat) (c : SpecificCharacterSet) (H : List (Except DErr DataElementHeader))
        (I : List (Except DErr SequenceItemHeader)) (V : List (Except DErr PrimitiveValue))
        (C : List (Except DErr Unit)),
      DataSetReader.next ⟨d, false, false, none, c⟩ ⟨Except.error DErr.ioEof :: H, I, V, C⟩
        = (none, ⟨d, false, true, none, c⟩, ⟨H, I, V, C⟩))
    ∧ (∀ (d : Nat) (c : SpecificCharacterSet) (h : DataElementHeader)
        (H : List (Except DErr DataElementHeader)) (I : List (Except DErr SequenceItemHeader))
        (V : List (Except DErr PrimitiveValue)) (C : List (Except DErr Unit)),
      DataSetReader.next ⟨d, false, false, some h, c⟩ ⟨H, I, Except.error DErr.ioEof :: V, C⟩
        = (some (Except.error DErr.ioEof), ⟨d, false, true, none, c⟩, ⟨H, I, V, C⟩))
    ∧ (∀ (d : Nat) (c : SpecificCharacterSet) (lh : Option DataElementHeader)
        (H : List (Except DErr DataElementHeader)) (I : List (Except DErr SequenceItemHeader))
        (V : List (Except DErr PrimitiveValue)) (C : List (Except DErr Unit)),
      DataSetReader.next ⟨d, true, false, lh, c⟩ ⟨H, Except.error DErr.ioEof :: I, V, C⟩
        = (some (Except.error DErr.ioEof), ⟨d, true, true, lh, c⟩, ⟨H, I, V, C⟩)) := by
  refine ⟨fun d c H I V C => rfl, fun d c h H I V C => rfl, fun d c lh H I V C => rfl⟩

/-- C3: character-set reconfiguration in S1 for tag (0008,0005). When the
value read for that tag is a string recognized by from_code, the reader
calls set_character_set and, on success, emits the PrimitiveValue result
with the parser codec already replaced; when set_character_set fails, the
reader fuses (Terminal) and surfaces that error instead of the value
result; when the string is not a recognized character-set UID (or the
value is not a string), no error is raised and the codec is unchanged. -/
theorem charset_reconfiguration (d : Nat) (c cnew : SpecificCharacterSet)
    (vr0 : VR) (len0 : Length) (v : PrimitiveValue) (e : DErr)
    (H : List (Except DErr DataElementHeader)) (I : List (Except DErr SequenceItemHeader))
    (V : List (Except DErr PrimitiveValue)) (C : List (Except DErr Unit)) :
    (v.string.bind SpecificCharacterSet.from_code = some cnew →
      DataSetReader.next ⟨d, false, false, some ⟨⟨0x0008, 0x0005⟩, vr0, len0⟩, c⟩
          ⟨H, I, Except.ok v :: V, Except.ok () :: C⟩
        = (some (Except.ok (DicomDataToken.primitiveValue v)),
            ⟨d, false, false, none, cnew⟩, ⟨H, I, V, C⟩))
    ∧ (v.string.bind SpecificCharacterSet.from_code = some cnew →
      DataSetReader.next ⟨d, false, false, some ⟨⟨0x0008, 0x0005⟩, vr0, len0⟩, c⟩
          ⟨H, I, Except.ok v :: V, Except.error e :: C⟩
        = (some (Except.error e), ⟨d, false, true, none, c⟩, ⟨H, I, V, C⟩))
    ∧ (v.string.bind SpecificCharacterSet.from_code = none →
      DataSetReader.next ⟨d, false, false, some ⟨⟨0x0008, 0x0005⟩, vr0, len0⟩, c⟩
          ⟨H, I, Except.ok v :: V, C⟩
        = (some (Except.ok (DicomDataToken.primitiveValue v)),
            ⟨d, false, false, none, c⟩, ⟨H, I, V, C⟩)) := by
  refine ⟨?_, ?_, ?_⟩ <;> intro hcode <;>
    simp [DataSetReader.next, popV, popC, hcode]

/-- Witness for charset_reconfiguration: a CS value holding the recognized
UID string switches the codec to UTF-8, and an unrecognized UID leaves the
Default codec in place. -/
theorem charset_reconfiguration_witness :
    ((PrimitiveValue.str "ISO_IR_192").string.bind SpecificCharacterSet.from_code
        = some SpecificCharacterSet.IsoIr192
      ∧ DataSetReader.next
          ⟨0, false, false, some ⟨⟨0x0008, 0x0005⟩, VR.CS, Length.new 10⟩,
            SpecificCharacterSet.Default⟩
          ⟨[], [], [Except.ok (PrimitiveValue.str "ISO_IR_192")], [Except.ok ()]⟩
        = (some (Except.ok (DicomDataToken.primitiveValue (PrimitiveValue.str "ISO_IR_192"))),
            ⟨0, false, false, none, SpecificCharacterSet.IsoIr192⟩, ⟨[], [], [], []⟩))
    ∧ ((PrimitiveValue.str "ISO 2022 IR 100").string.bind SpecificCharacterSet.from_code
        = none
      ∧ DataSetReader.next
          ⟨0, false, false, some ⟨⟨0x0008, 0x0005⟩, VR.CS, Length.new 16⟩,
            SpecificCharacterSet.Default⟩
          ⟨[], [], [Except.ok (PrimitiveValue.str "ISO 2022 IR 100")], []⟩
        = (some (Except.ok (DicomDataToken.primitiveValue
              (PrimitiveValue.str "ISO 2022 IR 100"))),
            ⟨0, false, false, none, SpecificCharacterSet.Default⟩, ⟨[], [], [], []⟩)) :=
  ⟨⟨by decide,
    (charset_reconfiguration 0 SpecificCharacterSet.Default SpecificCharacterSet.IsoIr192
        VR.CS (Length.new 10) (PrimitiveValue.str "ISO_IR_192") DErr.ioOther
        [] [] [] []).1 (by decide)⟩,
   ⟨by decide,
    (charset_reconfiguration 0 SpecificCharacterSet.Default SpecificCharacterSet.IsoIr192
        VR.CS (Length.new 16) (PrimitiveValue.str "ISO 2022 IR 100") DErr.ioOther
        [] [] [] []).2.2 (by decide)⟩⟩

/-- C10: an element header with the item-delimiter tag (FFFE,E00D) decoded
at the top level in S0 emits ItemEnd and moves to S2 without touching the
depth counter; a sequence delimiter then reaches the unguarded decrement of
the u32 depth counter while it is zero, and the counter underflows (wrap in
a release build, panic in a debug build): there is no depth-positive check
on that path. -/
theorem depth_underflow_on_toplevel_item_delimiter :
    (DataSetReader.next (DataSetReader.init SpecificCharacterSet.Default)
        ⟨[Except.ok ⟨⟨0xFFFE, 0xE00D⟩, VR.UN, Length.new 0⟩],
          [Except.ok SequenceItemHeader.sequenceDelimiter], [], []⟩).1
      = some (Except.ok DicomDataToken.itemEnd)
    ∧ (DataSetReader.next (DataSetReader.init SpecificCharacterSet.Default)
        ⟨[Except.ok ⟨⟨0xFFFE, 0xE00D⟩, VR.UN, Length.new 0⟩],
          [Except.ok SequenceItemHeader.sequenceDelimiter], [], []⟩).2.1
      = ⟨0, true, false, none, SpecificCharacterSet.Default⟩
    ∧ (DataSetReader.next ⟨0, true, false, none, SpecificCharacterSet.Default⟩
        ⟨[], [Except.ok SequenceItemHeader.sequenceDelimiter], [], []⟩).1
      = some (Except.ok DicomDataToken.sequenceEnd)
    ∧ (DataSetReader.next ⟨0, true, false, none, SpecificCharacterSet.Default⟩
        ⟨[], [Except.ok SequenceItemHeader.sequenceDelimiter], [], []⟩).2.1.depth
      = 4294967295 := by
  refine ⟨by decide, by decide, by decide, by decide⟩

/-! ### Well-formed inputs for the streaming reader

A well-formed document is a forest of elements in which every sequence is
explicitly closed by a sequence delimiter and every item by an item
delimiter, matching the way the state machine consumes delimiters (items
end with an item-delimiter element header seen in S0, sequences with a
sequence delimiter seen in S2). -/

mutual
/-- A well-formed element: a primitive element with its value, or a
sequence element containing well-formed items. -/
inductive WfElem where
  | prim (h : DataElementHeader) (v : PrimitiveValue)
  | seq (tag : Tag) (len : Length) (items : WfItems)

/-- A list of well-formed items; each item has a declared length and a body
of well-formed elements. -/
inductive WfItems where
  | nil
  | cons (len : Length) (body : WfElems) (rest : WfItems)

/-- A list of well-formed elements. -/
inductive WfElems where
  | nil
  | cons (e : WfElem) (rest : WfElems)
end

mutual
/-- Side conditions of well-formedness: a primitive element must not carry
the SQ value representation (that would open a sequence) nor the
item-delimiter tag (that would close an item). -/
def WfElem.ok : WfElem → Bool
  | .prim h _ =>
    if h.vr = VR.SQ then false
    else if h.tag = ⟨0xFFFE, 0xE00D⟩ then false
    else true
  | .seq _ _ items => items.ok

/-- Well-formedness of an item list. -/
def WfItems.ok : WfItems → Bool
  | .nil => true
  | .cons _ body rest => body.ok && rest.ok

/-- Well-formedness of an element list. -/
def WfElems.ok : WfElems → Bool
  | .nil => true
  | .cons e rest => e.ok && rest.ok
end

/-- Concatenation of parser scripts, componentwise. -/
def scriptAppend (a b : ParserScript) : ParserScript :=
  ⟨a.hdrs ++ b.hdrs, a.items ++ b.items, a.vals ++ b.vals, a.csr ++ b.csr⟩

mutual
/-- The parser responses produced by a well-formed element: the element
header, the values, the delimiters, and one set_character_set success for
each primitive whose tag is (0008,0005) with a recognized character set. -/
def WfElem.script : WfElem → ParserScript
  | .prim h v =>
    ⟨[Except.ok h], [], [Except.ok v],
      if h.tag = ⟨0x0008, 0x0005⟩
          ∧ (v.string.bind SpecificCharacterSet.from_code).isSome = true then
        [Except.ok ()]
      else []⟩
  | .seq t l items =>
    scriptAppend ⟨[Except.ok ⟨t, VR.SQ, l⟩], [], [], []⟩
      (scriptAppend items.script
        ⟨[], [Except.ok SequenceItemHeader.sequenceDelimiter], [], []⟩)

/-- The parser responses of an item list: each item contributes its item
header, its body, and a closing item-delimiter element header. -/
def WfItems.script : WfItems → ParserScript
  | .nil => ⟨[], [], [], []⟩
  | .cons len body rest =>
    scriptAppend ⟨[], [Except.ok (SequenceItemHeader.item len)], [], []⟩
      (scriptAppend body.script
        (scriptAppend ⟨[Except.ok ⟨⟨0xFFFE, 0xE00D⟩, VR.UN, Length.new 0⟩], [], [], []⟩
          rest.script))

/-- The parser responses of an element list. -/
def WfElems.script : WfElems → ParserScript
  | .nil => ⟨[], [], [], []⟩
  | .cons e rest => scriptAppend e.script rest.script
end

mutual
/-- The tokens the streaming reader emits for a well-formed element. -/
def WfElem.toks : WfElem → List DicomDataToken
  | .prim h v => [DicomDataToken.elementHeader h, DicomDataToken.primitiveValue v]
  | .seq t l items =>
    DicomDataToken.sequenceStart t l :: (items.toks ++ [DicomDataToken.sequenceEnd])

/-- The tokens the streaming reader emits for an item list. -/
def WfItems.toks : WfItems → List DicomDataToken
  | .nil => []
  | .cons len body rest =>
    DicomDataToken.itemStart len :: (body.toks ++ (DicomDataToken.itemEnd :: rest.toks))

/-- The tokens the streaming reader emits for an element list. -/
def WfElems.toks : WfElems → List DicomDataToken
  | .nil => []
  | .cons e rest => e.toks ++ rest.toks
end

mutual
/-- The character set active after tokenizing a well-formed element,
starting from the given one. -/
def WfElem.csA : WfElem → SpecificCharacterSet → SpecificCharacterSet
  | .prim h v, c =>
    if h.tag = ⟨0x0008, 0x0005⟩ then
      match v.string.bind SpecificCharacterSet.from_code with
      | some c2 => c2
      | none => c
    else c
  | .seq _ _ items, c => items.csA c

/-- The character set active after tokenizing an item list. -/
def WfItems.csA : WfItems → SpecificCharacterSet → SpecificCharacterSet
  | .nil, c => c
  | .cons _ body rest, c => rest.csA (body.csA c)

/-- The character set active after tokenizing an element list. -/
def WfElems.csA : WfElems → SpecificCharacterSet → SpecificCharacterSet
  | .nil, c => c
  | .cons e rest, c => rest.csA (e.csA c)
end

/-! ### Single-step lemmas for the streaming reader -/

theorem scriptAppend_assoc (a b c : ParserScript) :
    scriptAppend (scriptAppend a b) c = scriptAppend a (scriptAppend b c) := by
  simp [scriptAppend]

theorem scriptAppend_nil_left (p : ParserScript) :
    scriptAppend ⟨[], [], [], []⟩ p = p := rfl

theorem stepS0_sq (d : Nat) (c : SpecificCharacterSet) (h : DataElementHeader)
    (hvr : h.vr = VR.SQ) (q : ParserScript) :
    DataSetReader.next ⟨d, false, false, none, c⟩ ⟨Except.ok h :: q.hdrs, q.items, q.vals, q.csr⟩
      = (some (Except.ok (DicomDataToken.sequenceStart h.tag h.len)),
          ⟨u32_add1 d, true, false, none, c⟩, q) := by
  simp [DataSetReader.next, popH, hvr]

theorem stepS0_e00d (d : Nat) (c : SpecificCharacterSet) (h : DataElementHeader)
    (hvr : h.vr ≠ VR.SQ) (htag : h.tag = ⟨0xFFFE, 0xE00D⟩) (q : ParserScript) :
    DataSetReader.next ⟨d, false, false, none, c⟩ ⟨Except.ok h :: q.hdrs, q.items, q.vals, q.csr⟩
      = (some (Except.ok DicomDataToken.itemEnd), ⟨d, true, false, none, c⟩, q) := by
  simp [DataSetReader.next, popH, hvr, htag]

theorem stepS0_other (d : Nat) (c : SpecificCharacterSet) (h : DataElementHeader)
    (hvr : h.vr ≠ VR.SQ) (htag : h.tag ≠ ⟨0xFFFE, 0xE00D⟩) (q : ParserScript) :
    DataSetReader.next ⟨d, false, false, none, c⟩ ⟨Except.ok h :: q.hdrs, q.items, q.vals, q.csr⟩
      = (some (Except.ok (DicomDataToken.elementHeader h)),
          ⟨d, false, false, some h, c⟩, q) := by
  simp [DataSetReader.next, popH, hvr, htag]

theorem stepS2_item (d : Nat) (c : SpecificCharacterSet) (len : Length) (q : ParserScript) :
    DataSetReader.next ⟨d, true, false, none, c⟩
        ⟨q.hdrs, Except.ok (SequenceItemHeader.item len) :: q.items, q.vals, q.csr⟩
      = (some (Except.ok (DicomDataToken.itemStart len)),
          ⟨d, false, false, none, c⟩, q) := by
  simp [DataSetReader.next, popI]

theorem stepS2_itemDelim (d : Nat) (c : SpecificCharacterSet) (q : ParserScript) :
    DataSetReader.next ⟨d, true, false, none, c⟩
        ⟨q.hdrs, Except.ok SequenceItemHeader.itemDelimiter :: q.items, q.vals, q.csr⟩
      = (some (Except.ok DicomDataToken.itemEnd), ⟨d, true, false, none, c⟩, q) := by
  simp [DataSetReader.next, popI]

theorem stepS2_seqDelim (d : Nat) (c : SpecificCharacterSet) (q : ParserScript) :
    DataSetReader.next ⟨d, true, false, none, c⟩
        ⟨q.hdrs, Except.ok SequenceItemHeader.sequenceDelimiter :: q.items, q.vals, q.csr⟩
      = (some (Except.ok DicomDataToken.sequenceEnd),
          ⟨u32_sub1 d, false, false, none, c⟩, q) := by
  simp [DataSetReader.next, popI]

theorem stepS1_plain (d : Nat) (c : SpecificCharacterSet) (h : DataElementHeader)
    (htag : h.tag ≠ ⟨0x0008, 0x0005⟩) (v : PrimitiveValue) (q : ParserScript) :
    DataSetReader.next ⟨d, false, false, some h, c⟩
        ⟨q.hdrs, q.items, Except.ok v :: q.vals, q.csr⟩
      = (some (Except.ok (DicomDataToken.primitiveValue v)),
          ⟨d, false, false, none, c⟩, q) := by
  simp [DataSetReader.next, popV, htag]

theorem stepS1_cs_none (d : Nat) (c : SpecificCharacterSet) (h : DataElementHeader)
    (htag : h.tag = ⟨0x0008, 0x0005⟩) (v : PrimitiveValue)
    (hcs : v.string.bind SpecificCharacterSet.from_code = none) (q : ParserScript) :
    DataSetReader.next ⟨d, false, false, some h, c⟩
        ⟨q.hdrs, q.items, Except.ok v :: q.vals, q.csr⟩
      = (some (Except.ok (DicomDataToken.primitiveValue v)),
          ⟨d, false, false, none, c⟩, q) := by
  simp [DataSetReader.next, popV, htag, hcs]

theorem stepS1_cs_some (d : Nat) (c c2 : SpecificCharacterSet) (h : DataElementHeader)
    (htag : h.tag = ⟨0x0008, 0x0005⟩) (v : PrimitiveValue)
    (hcs : v.string.bind SpecificCharacterSet.from_code = some c2) (q : ParserScript) :
    DataSetReader.next ⟨d, false, false, some h, c⟩
        ⟨q.hdrs, q.items, Except.ok v :: q.vals, Except.ok () :: q.csr⟩
      = (some (Except.ok (DicomDataToken.primitiveValue v)),
          ⟨d, false, false, none, c2⟩, q) := by
  simp [DataSetReader.next, popV, popC, htag, hcs]

theorem run_step (n : Nat) (s : DataSetReaderState) (p : ParserScript)
    (r : Except DErr DicomDataToken) (s1 : DataSetReaderState) (p1 : ParserScript)
    (h : DataSetReader.next s p = (some r, s1, p1)) :
    DataSetReader.run (n + 1) s p
      = (r :: (DataSetReader.run n s1 p1).1, (DataSetReader.run n s1 p1).2) := by
  simp [DataSetReader.run, h]

theorem u32_add1_lt (d : Nat) : u32_add1 d < U32_MOD := by
  exact Nat.mod_lt _ (by decide)

theorem u32_sub1_add1 (d : Nat) (hd : d < U32_MOD) : u32_sub1 (u32_add1 d) = d := by
  have hd2 : d < 4294967296 := hd
  unfold u32_sub1 u32_add1 U32_MOD
  omega

/-! ### Running the streaming reader over well-formed input -/

mutual

/-- Running the streaming reader from S0 over the responses of a
well-formed element, with any continuation script and fuel: the reader
emits exactly the tokens of the element and continues from S0 at the same
depth, with the character set updated as recorded by csA. -/
theorem runE (e : WfElem) (hok : e.ok = true) (d : Nat) (hd : d < U32_MOD)
    (c : SpecificCharacterSet) (P : ParserScript) (n : Nat) :
    DataSetReader.run (e.toks.length + n) ⟨d, false, false, none, c⟩
        (scriptAppend e.script P)
      = ((e.toks.map Except.ok)
            ++ (DataSetReader.run n ⟨d, false, false, none, e.csA c⟩ P).1,
          (DataSetReader.run n ⟨d, false, false, none, e.csA c⟩ P).2) := by
  cases e with
  | prim h v =>
    have hvr : h.vr ≠ VR.SQ := by
      intro hh
      simp [WfElem.ok, hh] at hok
    have htag : h.tag ≠ (⟨0xFFFE, 0xE00D⟩ : Tag) := by
      intro hh
      simp [WfElem.ok, hh] at hok
    have hlen : (WfElem.prim h v).toks.length + n = (n + 1) + 1 := by
      simp [WfElem.toks]
      omega
    rw [hlen]
    by_cases ht : h.tag = (⟨0x0008, 0x0005⟩ : Tag)
    · cases hcs : v.string.bind SpecificCharacterSet.from_code with
      | none =>
        have hscript : scriptAppend (WfElem.prim h v).script P
            = ⟨Except.ok h :: (scriptAppend ⟨[], [], [Except.ok v], []⟩ P).hdrs,
                (scriptAppend ⟨[], [], [Except.ok v], []⟩ P).items,
                (scriptAppend ⟨[], [], [Except.ok v], []⟩ P).vals,
                (scriptAppend ⟨[], [], [Except.ok v], []⟩ P).csr⟩ := by
          simp [WfElem.script, scriptAppend, hcs]
        rw [hscript,
          run_step _ _ _ _ _ _ (stepS0_other d c h hvr htag
            (scriptAppend ⟨[], [], [Except.ok v], []⟩ P)),
          show scriptAppend ⟨[], [], [Except.ok v], []⟩ P
              = ⟨P.hdrs, P.items, Except.ok v :: P.vals, P.csr⟩ from rfl,
          run_step _ _ _ _ _ _ (stepS1_cs_none d c h ht v hcs P)]
        simp [WfElem.toks, WfElem.csA, ht, hcs]
      | some c2 =>
        have hscript : scriptAppend (WfElem.prim h v).script P
            = ⟨Except.ok h :: (scriptAppend ⟨[], [], [Except.ok v], [Except.ok ()]⟩ P).hdrs,
                (scriptAppend ⟨[], [], [Except.ok v], [Except.ok ()]⟩ P).items,
                (scriptAppend ⟨[], [], [Except.ok v], [Except.ok ()]⟩ P).vals,
                (scriptAppend ⟨[], [], [Except.ok v], [Except.ok ()]⟩ P).csr⟩ := by
          simp [WfElem.script, scriptAppend, ht, hcs]
        rw [hscript,
          run_step _ _ _ _ _ _ (stepS0_other d c h hvr htag
            (scriptAppend ⟨[], [], [Except.ok v], [Except.ok ()]⟩ P)),
          show scriptAppend ⟨[], [], [Except.ok v], [Except.ok ()]⟩ P
              = ⟨P.hdrs, P.items, Except.ok v :: P.vals, Except.ok () :: P.csr⟩ from rfl,
          run_step _ _ _ _ _ _ (stepS1_cs_some d c c2 h ht v hcs P)]
        simp [WfElem.toks, WfElem.csA, ht, hcs]
    · have hscript : scriptAppend (WfElem.prim h v).script P
          = ⟨Except.ok h :: (scriptAppend ⟨[], [], [Except.ok v], []⟩ P).hdrs,
              (scriptAppend ⟨[], [], [Except.ok v], []⟩ P).items,
              (scriptAppend ⟨[], [], [Except.ok v], []⟩ P).vals,
              (scriptAppend ⟨[], [], [Except.ok v], []⟩ P).csr⟩ := by
        simp [WfElem.script, scriptAppend, ht]
      rw [hscript,
        run_step _ _ _ _ _ _ (stepS0_other d c h hvr htag
          (scriptAppend ⟨[], [], [Except.ok v], []⟩ P)),
        show scriptAppend ⟨[], [], [Except.ok v], []⟩ P
            = ⟨P.hdrs, P.items, Except.ok v :: P.vals, P.csr⟩ from rfl,
        run_step _ _ _ _ _ _ (stepS1_plain d c h ht v P)]
      simp [WfElem.toks, WfElem.csA, ht]
  | seq t l items =>
    have hok1 : items.ok = true := by
      simpa [WfElem.ok] using hok
    have hlen : (WfElem.seq t l items).toks.length + n
        = (items.toks.length + (1 + n)) + 1 := by
      simp [WfElem.toks]
      omega
    rw [hlen]
    have hscript : scriptAppend (WfElem.seq t l items).script P
        = ⟨Except.ok ⟨t, VR.SQ, l⟩ ::
              (scriptAppend items.script
                (scriptAppend ⟨[], [Except.ok SequenceItemHeader.sequenceDelimiter], [], []⟩
                  P)).hdrs,
            (scriptAppend items.script
              (scriptAppend ⟨[], [Except.ok SequenceItemHeader.sequenceDelimiter], [], []⟩
                P)).items,
            (scriptAppend items.script
              (scriptAppend ⟨[], [Except.ok SequenceItemHeader.sequenceDelimiter], [], []⟩
                P)).vals,
            (scriptAppend items.script
              (scriptAppend ⟨[], [Except.ok SequenceItemHeader.sequenceDelimiter], [], []⟩
                P)).csr⟩ := by
      simp [WfElem.script, scriptAppend]
    rw [hscript,
      run_step _ _ _ _ _ _ (stepS0_sq d c ⟨t, VR.SQ, l⟩ rfl
        (scriptAppend items.script
          (scriptAppend ⟨[], [Except.ok SequenceItemHeader.sequenceDelimiter], [], []⟩ P))),
      runI items hok1 (u32_add1 d) (u32_add1_lt d) c
        (scriptAppend ⟨[], [Except.ok SequenceItemHeader.sequenceDelimiter], [], []⟩ P)
        (1 + n),
      show scriptAppend ⟨[], [Except.ok SequenceItemHeader.sequenceDelimiter], [], []⟩ P
          = ⟨P.hdrs, Except.ok SequenceItemHeader.sequenceDelimiter :: P.items,
              P.vals, P.csr⟩ from rfl,
      show (1 : Nat) + n = n + 1 from Nat.add_comm 1 n,
      run_step _ _ _ _ _ _ (stepS2_seqDelim (u32_add1 d) (items.csA c) P),
      u32_sub1_add1 d hd]
    simp [WfElem.toks, WfElem.csA]

/-- Running the streaming reader from S2 over the responses of a
well-formed item list: the reader emits exactly the item tokens and
continues from S2 at the same depth. -/
theorem runI (its : WfItems) (hok : its.ok = true) (d : Nat) (hd : d < U32_MOD)
    (c : SpecificCharacterSet) (P : ParserScript) (n : Nat) :
    DataSetReader.run (its.toks.length + n) ⟨d, true, false, none, c⟩
        (scriptAppend its.script P)
      = ((its.toks.map Except.ok)
            ++ (DataSetReader.run n ⟨d, true, false, none, its.csA c⟩ P).1,
          (DataSetReader.run n ⟨d, true, false, none, its.csA c⟩ P).2) := by
  cases its with
  | nil =>
    simp [WfItems.toks, WfItems.script, WfItems.csA, scriptAppend_nil_left]
  | cons len body rest =>
    have hok1 : body.ok = true := by
      have := hok
      simp [WfItems.ok, Bool.and_eq_true] at this
      exact this.1
    have hok2 : rest.ok = true := by
      have := hok
      simp [WfItems.ok, Bool.and_eq_true] at this
      exact this.2
    have hlen : (WfItems.cons len body rest).toks.length + n
        = (body.toks.length + ((rest.toks.length + n) + 1)) + 1 := by
      simp [WfItems.toks]
      omega
    rw [hlen]
    have hscript : scriptAppend (WfItems.cons len body rest).script P
        = ⟨(scriptAppend body.script
              (scriptAppend ⟨[Except.ok ⟨⟨0xFFFE, 0xE00D⟩, VR.UN, Length.new 0⟩], [], [], []⟩
                (scriptAppend rest.script P))).hdrs,
            Except.ok (SequenceItemHeader.item len) ::
              (scriptAppend body.script
                (scriptAppend ⟨[Except.ok ⟨⟨0xFFFE, 0xE00D⟩, VR.UN, Length.new 0⟩], [], [], []⟩
                  (scriptAppend rest.script P))).items,
            (scriptAppend body.script
              (scriptAppend ⟨[Except.ok ⟨⟨0xFFFE, 0xE00D⟩, VR.UN, Length.new 0⟩], [], [], []⟩
                (scriptAppend rest.script P))).vals,
            (scriptAppend body.script
              (scriptAppend ⟨[Except.ok ⟨⟨0xFFFE, 0xE00D⟩, VR.UN, Length.new 0⟩], [], [], []⟩
                (scriptAppend rest.script P))).csr⟩ := by
      simp [WfItems.script, scriptAppend]
    rw [hscript,
      run_step _ _ _ _ _ _ (stepS2_item d c len
        (scriptAppend body.script
          (scriptAppend ⟨[Except.ok ⟨⟨0xFFFE, 0xE00D⟩, VR.UN, Length.new 0⟩], [], [], []⟩
            (scriptAppend rest.script P)))),
      runEs body hok1 d hd c
        (scriptAppend ⟨[Except.ok ⟨⟨0xFFFE, 0xE00D⟩, VR.UN, Length.new 0⟩], [], [], []⟩
          (scriptAppend rest.script P))
        ((rest.toks.length + n) + 1),
      show scriptAppend ⟨[Except.ok ⟨⟨0xFFFE, 0xE00D⟩, VR.UN, Length.new 0⟩], [], [], []⟩
            (scriptAppend rest.script P)
          = ⟨Except.ok ⟨⟨0xFFFE, 0xE00D⟩, VR.UN, Length.new 0⟩ ::
                (scriptAppend rest.script P).hdrs,
              (scriptAppend rest.script P).items,
              (scriptAppend rest.script P).vals,
              (scriptAppend rest.script P).csr⟩ from rfl,
      run_step _ _ _ _ _ _ (stepS0_e00d d (body.csA c)
        ⟨⟨0xFFFE, 0xE00D⟩, VR.UN, Length.new 0⟩ (by decide) rfl
        (scriptAppend rest.script P)),
      runI rest hok2 d hd (body.csA c) P n]
    simp [WfItems.toks, WfItems.csA]

/-- Running the streaming reader from S0 over the responses of a
well-formed element list: the reader emits exactly the tokens of the list
and continues from S0 at the same depth. -/
theorem runEs (es : WfElems) (hok : es.ok = true) (d : Nat) (hd : d < U32_MOD)
    (c : SpecificCharacterSet) (P : ParserScript) (n : Nat) :
    DataSetReader.run (es.toks.length + n) ⟨d, false, false, none, c⟩
        (scriptAppend es.script P)
      = ((es.toks.map Except.ok)
            ++ (DataSetReader.run n ⟨d, false, false, none, es.csA c⟩ P).1,
          (DataSetReader.run n ⟨d, false, false, none, es.csA c⟩ P).2) := by
  cases es with
  | nil =>
    simp [WfElems.toks, WfElems.script, WfElems.csA, scriptAppend_nil_left]
  | cons e rest =>
    have hok1 : e.ok = true := by
      have := hok
      simp [WfElems.ok, Bool.and_eq_true] at this
      exact this.1
    have hok2 : rest.ok = true := by
      have := hok
      simp [WfElems.ok, Bool.and_eq_true] at this
      exact this.2
    have hlen : (WfElems.cons e rest).toks.length + n
        = e.toks.length + (rest.toks.length + n) := by
      simp [WfElems.toks]
      omega
    have hscript : scriptAppend (WfElems.cons e rest).script P
        = scriptAppend e.script (scriptAppend rest.script P) := by
      simp [WfElems.script, scriptAppend]
    rw [hlen, hscript,
      runE e hok1 d hd c (scriptAppend rest.script P) (rest.toks.length + n),
      runEs rest hok2 d hd (e.csA c) P n]
    simp [WfElems.toks, WfElems.csA]

end

/-! ### Balance of the emitted tokens on well-formed input -/

theorem seqSum_eq_counts (l : List DicomDataToken) :
    seqSum l = (l.countP isSeqStart : Int) - (l.countP isSeqEnd : Int) := by
  induction l with
  | nil => simp [seqSum]
  | cons t rest ih =>
    have hrest : seqSum rest = (rest.countP isSeqStart : Int) - rest.countP isSeqEnd := ih
    cases t <;>
      simp [seqSum, List.countP_cons, seqDelta, isSeqStart, isSeqEnd] at hrest ⊢ <;>
      omega

theorem seqScan_append (a b : List DicomDataToken) (c : Int)
    (h1 : seqScan c a = true) (h2 : seqScan (c + seqSum a) b = true) :
    seqScan c (a ++ b) = true := by
  induction a generalizing c with
  | nil =>
    simpa [seqSum] using h2
  | cons t rest ih =>
    simp only [seqScan] at h1
    by_cases hneg : c + seqDelta t < 0
    · simp [hneg] at h1
    · simp only [List.cons_append, seqScan, if_neg hneg]
      refine ih (c + seqDelta t) ?_ ?_
      · simpa [hneg] using h1
      · have : c + seqSum (t :: rest) = c + seqDelta t + seqSum rest := by
          simp [seqSum]
          omega
        rw [this] at h2
        exact h2

mutual

/-- The token list of a well-formed element is bracket balanced: equal
sequence bracket counts, equal item bracket counts, and the running count
of open sequences never drops below any starting count that is at least
zero. -/
theorem balE (e : WfElem) :
    e.toks.countP isSeqStart = e.toks.countP isSeqEnd
    ∧ e.toks.countP isItemStart = e.toks.countP isItemEnd
    ∧ ∀ c : Int, 0 ≤ c → seqScan c e.toks = true := by
  cases e with
  | prim h v =>
    refine ⟨by simp [WfElem.toks, List.countP_cons, isSeqStart, isSeqEnd],
      by simp [WfElem.toks, List.countP_cons, isItemStart, isItemEnd], ?_⟩
    intro c hc
    simp [WfElem.toks, seqScan, seqDelta, isSeqStart, isSeqEnd]
    omega
  | seq t l items =>
    obtain ⟨h1, h2, h3⟩ := balI items
    refine ⟨?_, ?_, ?_⟩
    · simp [WfElem.toks, List.countP_cons, List.countP_append, isSeqStart, isSeqEnd]
      omega
    · simp [WfElem.toks, List.countP_cons, List.countP_append, isItemStart, isItemEnd]
      omega
    · intro c hc
      have hdelta : seqDelta (DicomDataToken.sequenceStart t l) = 1 := by
        simp [seqDelta, isSeqStart]
      simp only [WfElem.toks, seqScan, hdelta]
      have hpos : ¬ c + 1 < 0 := by omega
      rw [if_neg hpos]
      refine seqScan_append _ _ _ (h3 (c + 1) (by omega)) ?_
      have hsum : seqSum items.toks = 0 := by
        rw [seqSum_eq_counts, h1]
        omega
      rw [hsum]
      simp [seqScan, seqDelta, isSeqStart, isSeqEnd]
      omega

/-- The token list of a well-formed item list is bracket balanced. -/
theorem balI (its : WfItems) :
    its.toks.countP isSeqStart = its.toks.countP isSeqEnd
    ∧ its.toks.countP isItemStart = its.toks.countP isItemEnd
    ∧ ∀ c : Int, 0 ≤ c → seqScan c its.toks = true := by
  cases its with
  | nil =>
    exact ⟨rfl, rfl, fun c hc => rfl⟩
  | cons len body rest =>
    obtain ⟨hb1, hb2, hb3⟩ := balEs body
    obtain ⟨hr1, hr2, hr3⟩ := balI rest
    refine ⟨?_, ?_, ?_⟩
    · simp [WfItems.toks, List.countP_cons, List.countP_append, isSeqStart, isSeqEnd]
      omega
    · simp [WfItems.toks, List.countP_cons, List.countP_append, isItemStart, isItemEnd]
      omega
    · intro c hc
      have hdelta : seqDelta (DicomDataToken.itemStart len) = 0 := by
        simp [seqDelta, isSeqStart, isSeqEnd]
      simp only [WfItems.toks, seqScan, hdelta]
      have hpos : ¬ c + 0 < 0 := by omega
      rw [if_neg hpos]
      have hc0 : c + 0 = c := by omega
      rw [hc0]
      refine seqScan_append _ _ _ (hb3 c hc) ?_
      have hsum : seqSum body.toks = 0 := by
        rw [seqSum_eq_counts, hb1]
        omega
      rw [hsum, hc0]
      have hdelta2 : seqDelta DicomDataToken.itemEnd = 0 := by
        simp [seqDelta, isSeqStart, isSeqEnd]
      simp only [seqScan, hdelta2]
      rw [if_neg hpos]
      simpa using hr3 c hc

/-- The token list of a well-formed element list is bracket balanced. -/
theorem balEs (es : WfElems) :
    es.toks.countP isSeqStart = es.toks.countP isSeqEnd
    ∧ es.toks.countP isItemStart = es.toks.countP isItemEnd
    ∧ ∀ c : Int, 0 ≤ c → seqScan c es.toks = true := by
  cases es with
  | nil =>
    exact ⟨rfl, rfl, fun c hc => rfl⟩
  | cons e rest =>
    obtain ⟨he1, he2, he3⟩ := balE e
    obtain ⟨hr1, hr2, hr3⟩ := balEs rest
    refine ⟨?_, ?_, ?_⟩
    · simp [WfElems.toks, List.countP_append]
      omega
    · simp [WfElems.toks, List.countP_append]
      omega
    · intro c hc
      refine seqScan_append _ _ _ (he3 c hc) ?_
      have hsum : seqSum e.toks = 0 := by
        rw [seqSum_eq_counts, he1]
        omega
      rw [hsum]
      simpa using hr3 c hc

end

/-- C1 amended: for a well-formed input — one in which every sequence is
closed by its sequence delimiter and every item by its item delimiter
before the top-level end of the source — the streaming reader completes
without error, emitting exactly the expected tokens, and the emitted
stream is balanced: equal counts of SequenceStart and SequenceEnd, equal
counts of ItemStart and ItemEnd, and every SequenceEnd preceded by a
matching SequenceStart at the same depth. (For inputs that merely complete
without error the property fails: a source truncated inside an open
sequence ends cleanly with unbalanced brackets.) -/
theorem streaming_wf_balanced (doc : WfElems) (c : SpecificCharacterSet)
    (hok : doc.ok = true) :
    (DataSetReader.run (doc.toks.length + 1) (DataSetReader.init c)
        (scriptAppend doc.script ⟨[Except.error DErr.ioEof], [], [], []⟩)).1
      = doc.toks.map Except.ok
    ∧ balanced doc.toks := by
  constructor
  · have h := runEs doc hok 0 (by decide) c ⟨[Except.error DErr.ioEof], [], [], []⟩ 1
    have hinit : DataSetReader.init c = ⟨0, false, false, none, c⟩ := rfl
    rw [hinit, h]
    have hrest : (DataSetReader.run 1 ⟨0, false, false, none, doc.csA c⟩
        ⟨[Except.error DErr.ioEof], [], [], []⟩).1 = [] := rfl
    simp [hrest]
  · obtain ⟨h1, h2, h3⟩ := balEs doc
    exact ⟨h1, h2, h3 0 le_rfl⟩

/-- Witness for streaming_wf_balanced: a document holding one
undefined-length sequence with one undefined-length item containing one
primitive element. -/
theorem streaming_wf_balanced_witness :
    ((WfElems.cons
        (WfElem.seq ⟨0x0040, 0x0275⟩ Length.undefined
          (WfItems.cons Length.undefined
            (WfElems.cons
              (WfElem.prim ⟨⟨0x0040, 0xA030⟩, VR.DT, Length.new 4⟩ (PrimitiveValue.nonStr 0))
              WfElems.nil)
            WfItems.nil))
        WfElems.nil).ok = true)
    ∧ ((DataSetReader.run
          ((WfElems.cons
            (WfElem.seq ⟨0x0040, 0x0275⟩ Length.undefined
              (WfItems.cons Length.undefined
                (WfElems.cons
                  (WfElem.prim ⟨⟨0x0040, 0xA030⟩, VR.DT, Length.new 4⟩
                    (PrimitiveValue.nonStr 0))
                  WfElems.nil)
                WfItems.nil))
            WfElems.nil).toks.length + 1)
          (DataSetReader.init SpecificCharacterSet.Default)
          (scriptAppend
            (WfElems.cons
              (WfElem.seq ⟨0x0040, 0x0275⟩ Length.undefined
                (WfItems.cons Length.undefined
                  (WfElems.cons
                    (WfElem.prim ⟨⟨0x0040, 0xA030⟩, VR.DT, Length.new 4⟩
                      (PrimitiveValue.nonStr 0))
                    WfElems.nil)
                  WfItems.nil))
              WfElems.nil).script
            ⟨[Except.error DErr.ioEof], [], [], []⟩)).1
        = (WfElems.cons
            (WfElem.seq ⟨0x0040, 0x0275⟩ Length.undefined
              (WfItems.cons Length.undefined
                (WfElems.cons
                  (WfElem.prim ⟨⟨0x0040, 0xA030⟩, VR.DT, Length.new 4⟩
                    (PrimitiveValue.nonStr 0))
                  WfElems.nil)
                WfItems.nil))
            WfElems.nil).toks.map Except.ok
      ∧ balanced
          (WfElems.cons
            (WfElem.seq ⟨0x0040, 0x0275⟩ Length.undefined
              (WfItems.cons Length.undefined
                (WfElems.cons
                  (WfElem.prim ⟨⟨0x0040, 0xA030⟩, VR.DT, Length.new 4⟩
                    (PrimitiveValue.nonStr 0))
                  WfElems.nil)
                WfItems.nil))
            WfElems.nil).toks) :=
  ⟨by decide,
    streaming_wf_balanced
      (WfElems.cons
        (WfElem.seq ⟨0x0040, 0x0275⟩ Length.undefined
          (WfItems.cons Length.undefined
            (WfElems.cons
              (WfElem.prim ⟨⟨0x0040, 0xA030⟩, VR.DT, Length.new 4⟩ (PrimitiveValue.nonStr 0))
              WfElems.nil)
            WfItems.nil))
        WfElems.nil)
      SpecificCharacterSet.Default (by decide)⟩

/-! ### The lazy marker reader (data/dataset.rs, LazyDataSetReader) -/

/-- A marker for an element in a random access source: the header and the
absolute byte offset right after the header (struct DicomElementMarker). -/
structure DicomElementMarker where
  header : DataElementHeader
  pos : Nat
deriving DecidableEq, Repr

/-- The responses of the external parser for the lazy reader. A successful
decode also reports how many source bytes the header occupied, advancing
the seek position; posErrs scripts the outcome of each get_position call
(none is success, reporting the current position). -/
structure LazyScript where
  hdrs : List (Except DErr (DataElementHeader × Nat))
  items : List (Except DErr (SequenceItemHeader × Nat))
  posErrs : List (Option DErr)
deriving DecidableEq, Repr

/-- The mutable state of LazyDataSetReader plus the source seek position. -/
structure LazyDataSetReaderState where
  depth : Nat
  in_sequence : Bool
  hard_break : Bool
  pos : Nat
deriving DecidableEq, Repr

/-- Pop the next decode_header response of the lazy script. -/
def popLH (p : LazyScript) : Except DErr (DataElementHeader × Nat) × LazyScript :=
  match p.hdrs with
  | [] => (Except.error DErr.ioEof, p)
  | r :: rest => (r, { p with hdrs := rest })

/-- Pop the next decode_item_header response of the lazy script. -/
def popLI (p : LazyScript) : Except DErr (SequenceItemHeader × Nat) × LazyScript :=
  match p.items with
  | [] => (Except.error DErr.ioEof, p)
  | r :: rest => (r, { p with items := rest })

/-- Pop the outcome of the next get_position call. -/
def popPE (p : LazyScript) : Option DErr × LazyScript :=
  match p.posErrs with
  | [] => (none, p)
  | r :: rest => (r, { p with posErrs := rest })

namespace LazyDataSetReader

/-- create_element_marker and create_item_marker (data/dataset.rs): query
the position; on success produce the marker at the current position, on
failure set hard_break and surface the error. -/
def mark (s : LazyDataSetReaderState) (h : DataElementHeader) (p : LazyScript) :
    Option (Except DErr DicomElementMarker) × LazyDataSetReaderState × LazyScript :=
  match popPE p with
  | (none, p2) => (some (Except.ok ⟨h, s.pos⟩), s, p2)
  | (some e, p2) => (some (Except.error e), { s with hard_break := true }, p2)

/-- One next() call of the lazy marker reader (data/dataset.rs, the
Iterator impl for LazyDataSetReader). Every event is surfaced as a marker;
items and delimiters go through the SequenceItemHeader conversion that sets
the VR to UN. Note that no branch seeks past a value: after a marker for a
primitive element is emitted, the source stays at the first value byte. -/
def next (s : LazyDataSetReaderState) (p : LazyScript) :
    Option (Except DErr DicomElementMarker) × LazyDataSetReaderState × LazyScript :=
  if s.hard_break then (none, s, p)
  else if s.in_sequence then
    match popLI p with
    | (Except.ok (SequenceItemHeader.item len, n), p1) =>
        mark ⟨s.depth, false, s.hard_break, s.pos + n⟩
          (DataElementHeader.fromItemHeader (SequenceItemHeader.item len)) p1
    | (Except.ok (SequenceItemHeader.itemDelimiter, n), p1) =>
        mark ⟨s.depth, true, s.hard_break, s.pos + n⟩
          (DataElementHeader.fromItemHeader SequenceItemHeader.itemDelimiter) p1
    | (Except.ok (SequenceItemHeader.sequenceDelimiter, n), p1) =>
        mark ⟨u32_sub1 s.depth, false, s.hard_break, s.pos + n⟩
          (DataElementHeader.fromItemHeader SequenceItemHeader.sequenceDelimiter) p1
    | (Except.error e, p1) =>
        (some (Except.error e), { s with hard_break := true }, p1)
  else
    match popLH p with
    | (Except.ok (h, n), p1) =>
      if h.tag = ⟨0x0008, 0x0005⟩ then
        mark ⟨s.depth, s.in_sequence, s.hard_break, s.pos + n⟩ h p1
      else if h.vr = VR.SQ then
        mark ⟨u32_add1 s.depth, true, s.hard_break, s.pos + n⟩ h p1
      else
        mark ⟨s.depth, s.in_sequence, s.hard_break, s.pos + n⟩ h p1
    | (Except.error e, p1) =>
        (some (Except.error e), { s with hard_break := true }, p1)

/-- The initial lazy reader state at a given source position. -/
def init (pos : Nat) : LazyDataSetReaderState := ⟨0, false, false, pos⟩

end LazyDataSetReader

/-! ### The fuse discipline of both readers -/

theorem ds_next_of_hard_break (s : DataSetReaderState) (p : ParserScript)
    (h : s.hard_break = true) : DataSetReader.next s p = (none, s, p) := by
  simp [DataSetReader.next, h]

theorem lz_next_of_hard_break (s : LazyDataSetReaderState) (p : LazyScript)
    (h : s.hard_break = true) : LazyDataSetReader.next s p = (none, s, p) := by
  simp [LazyDataSetReader.next, h]

/-- When a next() call of the streaming reader returns end-of-stream or an
error result, the post state has hard_break set. -/
theorem ds_next_result_hb (s : DataSetReaderState) (p : ParserScript)
    (hres : (DataSetReader.next s p).1 = none
      ∨ ∃ e, (DataSetReader.next s p).1 = some (Except.error e)) :
    ((DataSetReader.next s p).2.1).hard_break = true := by
  rcases s with ⟨d, ins, hb, lh, c⟩
  cases hb with
  | true =>
    simp [DataSetReader.next]
  | false =>
    cases ins with
    | true =>
      cases hi : p.items with
      | nil =>
        simp [DataSetReader.next, popI, hi]
      | cons r rest =>
        cases r with
        | error e =>
          simp [DataSetReader.next, popI, hi]
        | ok ih =>
          cases ih <;> simp [DataSetReader.next, popI, hi] at hres
    | false =>
      cases lh with
      | none =>
        cases hp : p.hdrs with
        | nil =>
          simp [DataSetReader.next, popH, hp]
        | cons r rest =>
          cases r with
          | error e =>
            by_cases he : e = DErr.ioEof <;> simp [DataSetReader.next, popH, hp, he]
          | ok h =>
            by_cases hvr : h.vr = VR.SQ
            · simp [DataSetReader.next, popH, hp, hvr] at hres
            · by_cases htag : h.tag = (⟨0xFFFE, 0xE00D⟩ : Tag) <;>
                simp [DataSetReader.next, popH, hp, hvr, htag] at hres
      | some h =>
        cases hv : p.vals with
        | nil =>
          simp [DataSetReader.next, popV, hv]
        | cons r rest =>
          cases r with
          | error e =>
            simp [DataSetReader.next, popV, hv]
          | ok v =>
            by_cases htag : h.tag = (⟨0x0008, 0x0005⟩ : Tag)
            · cases hcs : v.string.bind SpecificCharacterSet.from_code with
              | none =>
                simp [DataSetReader.next, popV, hv, htag, hcs] at hres
              | some c2 =>
                cases hc : p.csr with
                | nil =>
                  simp [DataSetReader.next, popV, popC, hv, htag, hcs, hc]
                | cons rr rest2 =>
                  cases rr with
                  | error e =>
                    simp [DataSetReader.next, popV, popC, hv, htag, hcs, hc]
                  | ok u =>
                    simp [DataSetReader.next, popV, popC, hv, htag, hcs, hc] at hres
            · simp [DataSetReader.next, popV, hv, htag] at hres

/-- When a next() call of the lazy reader returns end-of-stream or an
error result, the post state has hard_break set. -/
theorem lz_next_result_hb (s : LazyDataSetReaderState) (p : LazyScript)
    (hres : (LazyDataSetReader.next s p).1 = none
      ∨ ∃ e, (LazyDataSetReader.next s p).1 = some (Except.error e)) :
    ((LazyDataSetReader.next s p).2.1).hard_break = true := by
  rcases s with ⟨d, ins, hb, pos⟩
  cases hb with
  | true =>
    simp [LazyDataSetReader.next]
  | false =>
    cases ins with
    | true =>
      cases hi : p.items with
      | nil =>
        simp [LazyDataSetReader.next, popLI, hi]
      | cons r rest =>
        cases r with
        | error e =>
          simp [LazyDataSetReader.next, popLI, hi]
        | ok ihn =>
          rcases ihn with ⟨ih, n⟩
          cases hpe : p.posErrs with
          | nil =>
            cases ih <;> simp [LazyDataSetReader.next, LazyDataSetReader.mark,
              popLI, popPE, hi, hpe] at hres
          | cons o rest2 =>
            cases o with
            | none =>
              cases ih <;> simp [LazyDataSetReader.next, LazyDataSetReader.mark,
                popLI, popPE, hi, hpe] at hres
            | some e =>
              cases ih <;> simp [LazyDataSetReader.next, LazyDataSetReader.mark,
                popLI, popPE, hi, hpe]
    | false =>
      cases hp : p.hdrs with
      | nil =>
        simp [LazyDataSetReader.next, popLH, hp]
      | cons r rest =>
        cases r with
        | error e =>
          simp [LazyDataSetReader.next, popLH, hp]
        | ok hn =>
          rcases hn with ⟨h, n⟩
          cases hpe : p.posErrs with
          | nil =>
            by_cases htag : h.tag = (⟨0x0008, 0x0005⟩ : Tag)
            · simp [LazyDataSetReader.next, LazyDataSetReader.mark,
                popLH, popPE, hp, hpe, htag] at hres
            · by_cases hvr : h.vr = VR.SQ <;>
                simp [LazyDataSetReader.next, LazyDataSetReader.mark,
                  popLH, popPE, hp, hpe, htag, hvr] at hres
          | cons o rest2 =>
            cases o with
            | none =>
              by_cases htag : h.tag = (⟨0x0008, 0x0005⟩ : Tag)
              · simp [LazyDataSetReader.next, LazyDataSetReader.mark,
                  popLH, popPE, hp, hpe, htag] at hres
              · by_cases hvr : h.vr = VR.SQ <;>
                  simp [LazyDataSetReader.next, LazyDataSetReader.mark,
                    popLH, popPE, hp, hpe, htag, hvr] at hres
            | some e =>
              by_cases htag : h.tag = (⟨0x0008, 0x0005⟩ : Tag)
              · simp [LazyDataSetReader.next, LazyDataSetReader.mark,
                  popLH, popPE, hp, hpe, htag]
              · by_cases hvr : h.vr = VR.SQ <;>
                  simp [LazyDataSetReader.next, LazyDataSetReader.mark,
                    popLH, popPE, hp, hpe, htag, hvr]

/-- C4: both readers are permanently fused. Whenever a next() call of the
streaming reader or of the lazy marker reader returns end-of-stream (none)
or an error result, the resulting reader state answers every subsequent
next() call, with any parser behavior, with end-of-stream and leaves its
state unchanged. -/
theorem readers_fused :
    (∀ (s : DataSetReaderState) (p : ParserScript),
      ((DataSetReader.next s p).1 = none
        ∨ ∃ e, (DataSetReader.next s p).1 = some (Except.error e)) →
      ∀ q : ParserScript,
        DataSetReader.next (DataSetReader.next s p).2.1 q
          = (none, (DataSetReader.next s p).2.1, q))
    ∧ (∀ (s : LazyDataSetReaderState) (p : LazyScript),
      ((LazyDataSetReader.next s p).1 = none
        ∨ ∃ e, (LazyDataSetReader.next s p).1 = some (Except.error e)) →
      ∀ q : LazyScript,
        LazyDataSetReader.next (LazyDataSetReader.next s p).2.1 q
          = (none, (LazyDataSetReader.next s p).2.1, q)) := by
  constructor
  · intro s p hres q
    exact ds_next_of_hard_break _ q (ds_next_result_hb s p hres)
  · intro s p hres q
    exact lz_next_of_hard_break _ q (lz_next_result_hb s p hres)

/-- Witness for readers_fused: an I/O error on the first header decode
fuses each reader; the following call returns end-of-stream. -/
theorem readers_fused_witness :
    (((DataSetReader.next (DataSetReader.init SpecificCharacterSet.Default)
        ⟨[Except.error DErr.ioOther], [], [], []⟩).1 = none
      ∨ ∃ e, (DataSetReader.next (DataSetReader.init SpecificCharacterSet.Default)
        ⟨[Except.error DErr.ioOther], [], [], []⟩).1 = some (Except.error e))
    ∧ DataSetReader.next
        (DataSetReader.next (DataSetReader.init SpecificCharacterSet.Default)
          ⟨[Except.error DErr.ioOther], [], [], []⟩).2.1 ⟨[], [], [], []⟩
      = (none, (DataSetReader.next (DataSetReader.init SpecificCharacterSet.Default)
          ⟨[Except.error DErr.ioOther], [], [], []⟩).2.1, ⟨[], [], [], []⟩))
    ∧ (((LazyDataSetReader.next (LazyDataSetReader.init 0)
        ⟨[Except.error DErr.ioOther], [], []⟩).1 = none
      ∨ ∃ e, (LazyDataSetReader.next (LazyDataSetReader.init 0)
        ⟨[Except.error DErr.ioOther], [], []⟩).1 = some (Except.error e))
    ∧ LazyDataSetReader.next
        (LazyDataSetReader.next (LazyDataSetReader.init 0)
          ⟨[Except.error DErr.ioOther], [], []⟩).2.1 ⟨[], [], []⟩
      = (none, (LazyDataSetReader.next (LazyDataSetReader.init 0)
          ⟨[Except.error DErr.ioOther], [], []⟩).2.1, ⟨[], [], []⟩)) :=
  ⟨⟨Or.inr ⟨DErr.ioOther, by decide⟩,
    readers_fused.1 (DataSetReader.init SpecificCharacterSet.Default)
      ⟨[Except.error DErr.ioOther], [], [], []⟩
      (Or.inr ⟨DErr.ioOther, by decide⟩) ⟨[], [], [], []⟩⟩,
   ⟨Or.inr ⟨DErr.ioOther, by decide⟩,
    readers_fused.2 (LazyDataSetReader.init 0)
      ⟨[Except.error DErr.ioOther], [], []⟩
      (Or.inr ⟨DErr.ioOther, by decide⟩) ⟨[], [], []⟩⟩⟩

/-! ### Marker data access (data/dataset.rs, DicomElementMarker) -/

/-- Modelled from the util module (absent from these sources) and the Rust
range semantics: SeekInterval::new_at(source, a..b) seeks the source to a
and bounds reading at b, yielding the byte interval from a inclusive to b
exclusive. -/
structure SeekInterval where
  start : Nat
  stop : Nat
deriving DecidableEq, Repr

/-- SeekInterval::new_at over a range given as the pair (start, stop). -/
def SeekInterval.new_at (range : Nat × Nat) : SeekInterval :=
  ⟨range.1, range.2⟩

/-- DicomElementMarker::get_data_stream (data/dataset.rs): take the header
length (failing with UnresolvedValueLength when it is undefined) and build
the interval over the range pos..len, exactly as the source writes it. -/
def DicomElementMarker.get_data_stream (m : DicomElementMarker) :
    Except DErr SeekInterval :=
  match m.header.len.get with
  | none => Except.error DErr.unresolvedValueLength
  | some len => Except.ok (SeekInterval.new_at (m.pos, len))

/-- C7: get_data_stream on a marker with defined length 4 at position 8
yields the interval from 8 to 4 — the source passes the range pos..len, so
the upper bound is the bare length, not pos + len as the claim states (the
claimed interval would end at 12); the undefined-length case does fail with
UnresolvedValueLength. -/
theorem get_data_stream_bounds :
    DicomElementMarker.get_data_stream
        ⟨⟨⟨0x0010, 0x0010⟩, VR.PN, Length.new 4⟩, 8⟩
      = Except.ok ⟨8, 4⟩
    ∧ (4 : Nat) ≠ 8 + 4
    ∧ DicomElementMarker.get_data_stream
        ⟨⟨⟨0x0040, 0x0275⟩, VR.SQ, Length.undefined⟩, 8⟩
      = Except.error DErr.unresolvedValueLength := by
  refine ⟨by decide, by decide, by decide⟩

/-- C8: the lazy reader never advances the source past a value. Decoding a
primitive element header of length 8 that occupies 8 header bytes leaves
the source at position 8 — the first value byte, which is also the marker
position — while the claim requires the source to be seeked forward to
position 16 (marker position plus length); no branch of
LazyDataSetReader::next seeks past a value. -/
theorem lazy_reader_does_not_skip_values :
    LazyDataSetReader.next (LazyDataSetReader.init 0)
        ⟨[Except.ok (⟨⟨0x0010, 0x0010⟩, VR.PN, Length.new 8⟩, 8)], [], []⟩
      = (some (Except.ok ⟨⟨⟨0x0010, 0x0010⟩, VR.PN, Length.new 8⟩, 8⟩),
          ⟨0, false, false, 8⟩, ⟨[], [], []⟩)
    ∧ (8 : Nat) ≠ 8 + 8 := by
  refine ⟨by decide, by decide⟩

end Dicom
